import Mathlib

/-!
Verification of the godoes/eureka-client heartbeat scheduler and its sharded
concurrent map, as a shallow embedding in Lean 4.

Embedded source files:
* `concurrent_map.go` — the sharded string-keyed map (`ConcurrentMap`):
  each of the 32 shards is a Go `map[string]interface{}`, modelled here as an
  association list with Go-map read/write/delete semantics; a shard is selected
  by FNV-1 32-bit hash of the key's UTF-8 bytes, modulo `ShardCount`.
* the beat-reactor file — `BeatReactor`, `NewBeatReactor`, `AddBeatInfo`,
  `RemoveBeatInfo`, and one iteration of the `sendInstanceBeat` goroutine loop.
  Go pointers to `Instance` records are modelled by indices into an explicit
  heap (a list of records), since `AddBeatInfo`/`RemoveBeatInfo` mutate records
  through shared pointers that running goroutines also read.

Mutating Go methods become state-passing functions; a method that only reads
returns its result paired with the receiver it leaves behind (unchanged, as in
the source, which takes no write lock on those paths).
-/

namespace EurekaClient

/-! ### Go map model

A Go `map[string]α` value, as an association list: lookup returns the first
binding, assignment replaces an existing binding in place or appends, delete
removes the binding. Keys are unique under this discipline, matching Go map
semantics. -/

def goLookup : List (String × α) → String → Option α
  | [], _ => none
  | p :: rest, key => if p.1 == key then some p.2 else goLookup rest key

def goAssign : List (String × α) → String → α → List (String × α)
  | [], key, v => [(key, v)]
  | p :: rest, key, v =>
    if p.1 == key then (key, v) :: rest else p :: goAssign rest key v

def goDelete : List (String × α) → String → List (String × α)
  | [], _ => []
  | p :: rest, key =>
    if p.1 == key then goDelete rest key else p :: goDelete rest key

/-! ### Shard selection

`GetShard` hashes the key's UTF-8 bytes with FNV-1 (32 bit: `fnv.New32`,
offset basis 2166136261, prime 16777619, multiply-then-xor) and reduces the
sum modulo `ShardCount`. -/

/-- UTF-8 encoding of one character, the byte sequence Go's `[]byte(key)`
yields for it. -/
def charUtf8 (c : Char) : List Nat :=
  let n := c.toNat
  if n < 128 then [n]
  else if n < 2048 then [192 ||| (n >>> 6), 128 ||| (n &&& 63)]
  else if n < 65536 then
    [224 ||| (n >>> 12), 128 ||| ((n >>> 6) &&& 63), 128 ||| (n &&& 63)]
  else
    [240 ||| (n >>> 18), 128 ||| ((n >>> 12) &&& 63),
     128 ||| ((n >>> 6) &&& 63), 128 ||| (n &&& 63)]

def stringBytes (s : String) : List Nat := s.data.flatMap charUtf8

def fnv32 (bytes : List Nat) : Nat :=
  bytes.foldl (fun h b => ((h * 16777619) % 2 ^ 32) ^^^ b) 2166136261

/-- `var ShardCount = 32` -/
def ShardCount : Nat := 32

/-- `ConcurrentMap`: a fixed array of `ShardCount` shards. -/
@[ext] structure ConcurrentMap (α : Type) where
  shards : Fin ShardCount → List (String × α)

/-- `NewConcurrentMap`: every shard starts empty. -/
def NewConcurrentMap (α : Type) : ConcurrentMap α := ⟨fun _ => []⟩

/-- Index of the shard owning `key`: `hash.Sum32() % uint32(ShardCount)`. -/
def shardIndex (key : String) : Fin ShardCount :=
  ⟨fnv32 (stringBytes key) % ShardCount, Nat.mod_lt _ (by decide)⟩

/-- `GetShard`: returns the shard under the given key. -/
def ConcurrentMap.GetShard (m : ConcurrentMap α) (key : String) :
    List (String × α) :=
  m.shards (shardIndex key)

/-- Writing back the shard owning `key` (the effect, in a pure embedding, of
mutating that shard's `items` in place). -/
def ConcurrentMap.setShard (m : ConcurrentMap α) (key : String)
    (items : List (String × α)) : ConcurrentMap α :=
  ⟨Function.update m.shards (shardIndex key) items⟩

/-- `Set`: `shard.items[key] = value`. -/
def ConcurrentMap.Set (m : ConcurrentMap α) (key : String) (value : α) :
    ConcurrentMap α :=
  m.setShard key (goAssign (m.GetShard key) key value)

/-- `Get`: `val, ok := shard.items[key]; return val, ok`. The absent case
returns Go `nil`, modelled `none`. No write happens; the receiver is returned
as left by the body. -/
def ConcurrentMap.Get (m : ConcurrentMap α) (key : String) :
    (Option α × Bool) × ConcurrentMap α :=
  let val := goLookup (m.GetShard key) key
  ((val, val.isSome), m)

/-- `SetIfAbsent`: `_, ok := shard.items[key]; if !ok { shard.items[key] =
value }; return !ok`. -/
def ConcurrentMap.SetIfAbsent (m : ConcurrentMap α) (key : String) (value : α) :
    Bool × ConcurrentMap α :=
  let shard := m.GetShard key
  let ok := (goLookup shard key).isSome
  (!ok, m.setShard key (if !ok then goAssign shard key value else shard))

/-- `Has`: `_, ok := shard.items[key]; return ok`. Read-only. -/
def ConcurrentMap.Has (m : ConcurrentMap α) (key : String) :
    Bool × ConcurrentMap α :=
  ((goLookup (m.GetShard key) key).isSome, m)

/-- `Remove`: `delete(shard.items, key)`. -/
def ConcurrentMap.Remove (m : ConcurrentMap α) (key : String) :
    ConcurrentMap α :=
  m.setShard key (goDelete (m.GetShard key) key)

/-- `Pop`: `v, exists = shard.items[key]; delete(shard.items, key); return v,
exists` — read then delete under one shard lock. -/
def ConcurrentMap.Pop (m : ConcurrentMap α) (key : String) :
    (Option α × Bool) × ConcurrentMap α :=
  let shard := m.GetShard key
  let v := goLookup shard key
  ((v, v.isSome), m.setShard key (goDelete shard key))

/-- `Count`: sums `len(shard.items)` over the shards in index order.
Read-only. -/
def ConcurrentMap.Count (m : ConcurrentMap α) : Nat × ConcurrentMap α :=
  ((List.finRange ShardCount).foldl (fun count i => count + (m.shards i).length)
    0, m)

/-- `Keys`: appends every shard's keys in shard order. Read-only. -/
def ConcurrentMap.Keys (m : ConcurrentMap α) : List String × ConcurrentMap α :=
  ((List.finRange ShardCount).foldl
    (fun keys i => keys ++ (m.shards i).map Prod.fst) [], m)

/-- `Items`: builds `tmp` by `tmp[k] = v` over every shard in shard order and
returns it. Read-only. -/
def ConcurrentMap.Items (m : ConcurrentMap α) :
    List (String × α) × ConcurrentMap α :=
  ((List.finRange ShardCount).foldl
    (fun tmp i => (m.shards i).foldl (fun t p => goAssign t p.1 p.2) tmp) [], m)

/-- `MarshalJSON`: builds its own `tmp` by the same per-shard loop as `Items`,
then returns `json.Marshal(tmp)`. The opaque `json.Marshal` of the external
encoding library is the parameter `jsonMarshal`. Read-only. -/
def ConcurrentMap.MarshalJSON (jsonMarshal : List (String × α) → List Nat)
    (m : ConcurrentMap α) : List Nat × ConcurrentMap α :=
  let tmp := (List.finRange ShardCount).foldl
    (fun tmp i => (m.shards i).foldl (fun t p => goAssign t p.1 p.2) tmp) []
  (jsonMarshal tmp, m)

/-! ### Beat reactor

The heartbeat scheduler. The Go `Instance` struct is embedded restricted to
the fields the scheduler reads or writes (`App`, `InstanceID`, `Status`); a Go
`*Instance` is an index into the explicit `heap`, since `AddBeatInfo` and
`RemoveBeatInfo` mutate records through pointers that the `sendInstanceBeat`
goroutines also hold and poll. -/

structure Instance where
  App : String
  Status : String
  InstanceID : String
deriving DecidableEq

def heapGet (heap : List Instance) (ref : Nat) : Instance :=
  (heap.get? ref).getD ⟨"", "", ""⟩

def heapSet (heap : List Instance) (ref : Nat) (inst : Instance) :
    List Instance :=
  heap.set ref inst

/-- `const DefaultBeatThreadNum = 20` -/
def DefaultBeatThreadNum : Nat := 20

/-- `BeatReactor` state. `beatMap` stores `*Instance` (heap references);
`beatRecordMap` stores the millisecond timestamps of successful beats;
`semAvailable` is the number of free permits of `beatThreadSemaphore`
(capacity `beatThreadCount`). The `config`, logger and mutex fields carry no
heartbeat state and are omitted. -/
structure BeatReactor where
  heap : List Instance
  beatMap : ConcurrentMap Nat
  beatRecordMap : ConcurrentMap Int
  semAvailable : Nat
  clientBeatIntervalInSecs : Int
  beatThreadCount : Nat
  periodNanos : Int

/-- `NewBeatReactor(config, clientBeatIntervalInSecs)`: a non-positive
interval becomes 5; thread count is `DefaultBeatThreadNum`; the semaphore is
created with that many permits; `Period = time.Duration(secs) * time.Second`
(nanoseconds). -/
def NewBeatReactor (clientBeatIntervalInSecs : Int) : BeatReactor :=
  let secs := if clientBeatIntervalInSecs ≤ 0 then 5 else clientBeatIntervalInSecs
  { heap := []
    beatMap := NewConcurrentMap Nat
    beatRecordMap := NewConcurrentMap Int
    semAvailable := DefaultBeatThreadNum
    clientBeatIntervalInSecs := secs
    beatThreadCount := DefaultBeatThreadNum
    periodNanos := secs * 1000000000 }

/-- `AddBeatInfo(beatInfo)`: under the mutex, `k := beatInfo.InstanceID`; if
`k` is already present, the local `beatInfo` is REASSIGNED to the stored
record (`beatInfo = data.(*Instance)`), that record's `Status` is set to
`"UP"`, and the key is removed; then `beatMap.Set(k, beatInfo)` stores
whatever `beatInfo` now points to, and `go sendInstanceBeat(k, beatInfo)`
spawns one goroutine. Returns the new state and the `(k, ref)` pair the
spawned goroutine is bound to. -/
def BeatReactor.AddBeatInfo (br : BeatReactor) (beatInfoRef : Nat) :
    BeatReactor × (String × Nat) :=
  let k := (heapGet br.heap beatInfoRef).InstanceID
  let g := (br.beatMap.Get k).1
  let (br, beatInfoRef) :=
    if g.2 then
      let r := g.1.getD 0
      ({ br with
          heap := heapSet br.heap r { heapGet br.heap r with Status := "UP" }
          beatMap := br.beatMap.Remove k }, r)
    else (br, beatInfoRef)
  ({ br with beatMap := br.beatMap.Set k beatInfoRef }, (k, beatInfoRef))

/-- `RemoveBeatInfo(serviceName, instanceId)`: under the mutex,
`k := instanceId`; if present, the stored record's `Status` is set to `"UP"`;
then the key is removed from `beatMap`. -/
def BeatReactor.RemoveBeatInfo (br : BeatReactor)
    (serviceName instanceId : String) : BeatReactor :=
  let k := instanceId
  let g := (br.beatMap.Get k).1
  let br :=
    if g.2 then
      let r := g.1.getD 0
      { br with
          heap := heapSet br.heap r { heapGet br.heap r with Status := "UP" } }
    else br
  { br with beatMap := br.beatMap.Remove k }

/-- Outcome of one `Heartbeat` RPC: `nil`, `ErrNotFound`, or any other
error. -/
inductive BeatOutcome
  | success
  | errNotFound
  | errTransient
deriving DecidableEq

/-- How one iteration of the `sendInstanceBeat` loop ends. -/
inductive IterResult
  /-- `Acquire` blocks: no permit is free. -/
  | blockedOnSemaphore
  /-- `return`: the goroutine exits permanently. -/
  | exited
  /-- `t := time.NewTimer(br.Period); <-t.C` then the loop continues. -/
  | sleepThenLoop
deriving DecidableEq

/-- One iteration of the `for` loop of `sendInstanceBeat(k, beatInfo)`:
acquire a semaphore permit (the `Acquire` error branch is unreachable with the
background context); if `beatInfo.Status != "UP"`, release and exit; otherwise
perform the `Heartbeat` call with the given `outcome`; on `ErrNotFound`,
`beatMap.Remove(k)` and exit; on any other error, release and sleep; on
success, `beatRecordMap.Set(k, nowMillis)`, release and sleep. -/
def BeatReactor.sendInstanceBeatIter (br : BeatReactor) (k : String)
    (beatInfoRef : Nat) (outcome : BeatOutcome) (nowMillis : Int) :
    BeatReactor × IterResult :=
  if br.semAvailable = 0 then (br, .blockedOnSemaphore)
  else
    let br := { br with semAvailable := br.semAvailable - 1 }
    if (heapGet br.heap beatInfoRef).Status ≠ "UP" then
      ({ br with semAvailable := br.semAvailable + 1 }, .exited)
    else
      match outcome with
      | .errNotFound =>
        ({ br with beatMap := br.beatMap.Remove k }, .exited)
      | .errTransient =>
        ({ br with semAvailable := br.semAvailable + 1 }, .sleepThenLoop)
      | .success =>
        let br := { br with beatRecordMap := br.beatRecordMap.Set k nowMillis }
        ({ br with semAvailable := br.semAvailable + 1 }, .sleepThenLoop)

/-! ### Lemmas about the Go map model -/

theorem goLookup_goAssign_self (l : List (String × α)) (k : String) (v : α) :
    goLookup (goAssign l k v) k = some v := by
  induction l with
  | nil => simp [goAssign, goLookup]
  | cons p rest ih =>
    cases h : p.1 == k with
    | true => simp [goAssign, goLookup, h]
    | false => simp [goAssign, goLookup, h, ih]

theorem goLookup_goAssign_ne (l : List (String × α)) (k k' : String) (v : α)
    (hne : k ≠ k') : goLookup (goAssign l k v) k' = goLookup l k' := by
  induction l with
  | nil => simp [goAssign, goLookup, hne]
  | cons p rest ih =>
    cases h : p.1 == k with
    | true =>
      have hp : p.1 = k := eq_of_beq h
      simp [goAssign, goLookup, h, hne, hp]
    | false => simp [goAssign, goLookup, h, ih]

theorem goLookup_goDelete_self (l : List (String × α)) (k : String) :
    goLookup (goDelete l k) k = none := by
  induction l with
  | nil => simp [goDelete, goLookup]
  | cons p rest ih =>
    cases h : p.1 == k with
    | true => simp [goDelete, h, ih]
    | false => simp [goDelete, goLookup, h, ih]

theorem goLookup_goDelete_ne (l : List (String × α)) (k k' : String)
    (hne : k ≠ k') : goLookup (goDelete l k) k' = goLookup l k' := by
  induction l with
  | nil => simp [goDelete]
  | cons p rest ih =>
    cases h : p.1 == k with
    | true =>
      have hp : p.1 = k := eq_of_beq h
      simp [goDelete, goLookup, h, ih, hp, hne]
    | false => simp [goDelete, goLookup, h, ih]

theorem goDelete_eq_of_lookup_none (l : List (String × α)) (k : String)
    (hnone : goLookup l k = none) : goDelete l k = l := by
  induction l with
  | nil => rfl
  | cons p rest ih =>
    cases h : p.1 == k with
    | true => simp [goLookup, h] at hnone
    | false =>
      simp [goLookup, h] at hnone
      simp [goDelete, h, ih hnone]

/-! ### Lemmas about shard read/write -/

theorem ConcurrentMap.GetShard_setShard_self (m : ConcurrentMap α) (k : String)
    (l : List (String × α)) : (m.setShard k l).GetShard k = l := by
  simp [ConcurrentMap.GetShard, ConcurrentMap.setShard]

theorem ConcurrentMap.setShard_getShard_self (m : ConcurrentMap α)
    (k : String) : m.setShard k (m.GetShard k) = m := by
  cases m with
  | mk shards => simp [ConcurrentMap.setShard, ConcurrentMap.GetShard]

theorem goLookup_getShard_setShard (m : ConcurrentMap α) (k k' : String)
    (l : List (String × α))
    (hl : goLookup l k' = goLookup (m.GetShard k) k') :
    goLookup ((m.setShard k l).GetShard k') k' = goLookup (m.GetShard k') k' := by
  by_cases h : shardIndex k' = shardIndex k
  · show goLookup (Function.update m.shards (shardIndex k) l (shardIndex k')) k'
      = goLookup (m.shards (shardIndex k')) k'
    rw [h, Function.update_same, hl]
    rfl
  · show goLookup (Function.update m.shards (shardIndex k) l (shardIndex k')) k'
      = goLookup (m.shards (shardIndex k')) k'
    rw [Function.update_noteq h]

theorem ConcurrentMap.Get_fst_setShard (m : ConcurrentMap α) (k k' : String)
    (l : List (String × α))
    (hl : goLookup l k' = goLookup (m.GetShard k) k') :
    ((m.setShard k l).Get k').1 = (m.Get k').1 := by
  have h := goLookup_getShard_setShard m k k' l hl
  simp [ConcurrentMap.Get, h]

/-! ### Claim theorems: the sharded concurrent map -/

/-- C5. Map round-trip: for every map state, key `k` and value `v`,
`Set(k,v)` followed by `Get(k)` returns `(v, true)`, and `Remove(k)` followed
by `Get(k)` returns `(_, false)` (concretely `(nil, false)`). -/
theorem concurrentMap_roundtrip (m : ConcurrentMap α) (k : String) (v : α) :
    ((m.Set k v).Get k).1 = (some v, true) ∧
    ((m.Remove k).Get k).1 = (none, false) := by
  constructor
  · simp [ConcurrentMap.Set, ConcurrentMap.Get,
      ConcurrentMap.GetShard_setShard_self, goLookup_goAssign_self]
  · simp [ConcurrentMap.Remove, ConcurrentMap.Get,
      ConcurrentMap.GetShard_setShard_self, goLookup_goDelete_self]

/-- C6. `SetIfAbsent(k,v)` returns `true` and stores `v` under `k` iff no
value was associated with `k`; if `k` was present it returns `false` and the
map (hence the stored value for `k`) is unchanged; consequently a second
`SetIfAbsent` on the same key after a successful insert observes `false`. -/
theorem setIfAbsent_insert_iff_absent (m : ConcurrentMap α) (k : String)
    (v w : α) :
    (m.SetIfAbsent k v).1 = !(m.Has k).1 ∧
    ((m.Has k).1 = false → ((m.SetIfAbsent k v).2.Get k).1 = (some v, true)) ∧
    ((m.Has k).1 = true → (m.SetIfAbsent k v).2 = m) ∧
    ((m.Has k).1 = false → ((m.SetIfAbsent k v).2.SetIfAbsent k w).1 = false) := by
  refine ⟨rfl, fun h => ?_, fun h => ?_, fun h => ?_⟩
  · simp only [ConcurrentMap.Has] at h
    simp [ConcurrentMap.SetIfAbsent, ConcurrentMap.Get, h,
      ConcurrentMap.GetShard_setShard_self, goLookup_goAssign_self]
  · simp only [ConcurrentMap.Has] at h
    simp [ConcurrentMap.SetIfAbsent, h, ConcurrentMap.setShard_getShard_self]
  · simp only [ConcurrentMap.Has] at h
    simp [ConcurrentMap.SetIfAbsent, h,
      ConcurrentMap.GetShard_setShard_self, goLookup_goAssign_self]

/-- C6 witness: on a fresh map, inserting under an absent key yields
`inserted = true` and stores the value; a second `SetIfAbsent` yields
`false`. -/
theorem setIfAbsent_insert_iff_absent_witness :
    (((NewConcurrentMap Nat).SetIfAbsent "order-1" 5).2.Get "order-1").1
      = (some 5, true) ∧
    (((NewConcurrentMap Nat).SetIfAbsent "order-1" 5).2.SetIfAbsent
      "order-1" 9).1 = false :=
  ⟨(setIfAbsent_insert_iff_absent (NewConcurrentMap Nat) "order-1" 5 9).2.1
      (by decide),
   (setIfAbsent_insert_iff_absent (NewConcurrentMap Nat) "order-1" 5 9).2.2.2
      (by decide)⟩

/-- C7. `Pop(k)` is an atomic read-then-delete: if `k` is present with value
`v` it returns `(v, true)` and afterwards `k` is absent; if `k` is absent it
returns `(nil, false)` and the map is unchanged — absence is reported only
through the boolean, never as an error. -/
theorem pop_read_then_delete (m : ConcurrentMap α) (k : String) :
    ((m.Has k).1 = true →
      (m.Pop k).1 = ((m.Get k).1.1, true) ∧ ((m.Pop k).2.Has k).1 = false) ∧
    ((m.Has k).1 = false →
      (m.Pop k).1 = (none, false) ∧ (m.Pop k).2 = m) := by
  constructor
  · intro h
    simp only [ConcurrentMap.Has] at h
    constructor
    · simp [ConcurrentMap.Pop, ConcurrentMap.Get, h]
    · simp [ConcurrentMap.Pop, ConcurrentMap.Has,
        ConcurrentMap.GetShard_setShard_self, goLookup_goDelete_self]
  · intro h
    simp only [ConcurrentMap.Has] at h
    have hnone : goLookup (m.GetShard k) k = none := by
      cases hc : goLookup (m.GetShard k) k with
      | none => rfl
      | some a => rw [hc] at h; simp at h
    constructor
    · simp [ConcurrentMap.Pop, hnone]
    · simp only [ConcurrentMap.Pop]
      rw [goDelete_eq_of_lookup_none _ _ hnone,
        ConcurrentMap.setShard_getShard_self]

/-- C7 witness: popping a present key returns its value and deletes it;
popping an absent key returns `(none, false)` and leaves the map equal to
itself. -/
theorem pop_read_then_delete_witness :
    (((NewConcurrentMap Nat).Set "order-1" 5).Pop "order-1").1
      = (((((NewConcurrentMap Nat).Set "order-1" 5)).Get "order-1").1.1, true) ∧
    ((((NewConcurrentMap Nat).Set "order-1" 5).Pop "order-1").2.Has
      "order-1").1 = false ∧
    ((NewConcurrentMap Nat).Pop "missing").1 = (none, false) ∧
    ((NewConcurrentMap Nat).Pop "missing").2 = NewConcurrentMap Nat :=
  ⟨((pop_read_then_delete ((NewConcurrentMap Nat).Set "order-1" 5)
      "order-1").1 (by decide)).1,
   ((pop_read_then_delete ((NewConcurrentMap Nat).Set "order-1" 5)
      "order-1").1 (by decide)).2,
   ((pop_read_then_delete (NewConcurrentMap Nat) "missing").2 (by decide)).1,
   ((pop_read_then_delete (NewConcurrentMap Nat) "missing").2 (by decide)).2⟩

/-- C9. `MarshalJSON` renders exactly the flat key-to-value mapping that
`Items` returns: whatever the external `json.Marshal` encoding is, the bytes
produced are the encoding of `Items()`, because both build `tmp` by the same
per-shard merge. -/
theorem marshalJSON_agrees_with_items
    (jsonMarshal : List (String × α) → List Nat) (m : ConcurrentMap α) :
    (ConcurrentMap.MarshalJSON jsonMarshal m).1 = jsonMarshal (m.Items).1 :=
  rfl

/-- C10. Single-key frame property: for keys `k ≠ k'`, `Set`, `SetIfAbsent`,
`Remove` and `Pop` at `k` leave the association of `k'` unchanged, and the
read operations `Get`, `Has`, `Count`, `Keys`, `Items` leave the whole map
unchanged. -/
theorem concurrentMap_single_key_frame (m : ConcurrentMap α) (k k' : String)
    (v : α) (h : k ≠ k') :
    ((m.Set k v).Get k').1 = (m.Get k').1 ∧
    ((m.SetIfAbsent k v).2.Get k').1 = (m.Get k').1 ∧
    ((m.Remove k).Get k').1 = (m.Get k').1 ∧
    ((m.Pop k).2.Get k').1 = (m.Get k').1 ∧
    (m.Get k).2 = m ∧ (m.Has k).2 = m ∧ m.Count.2 = m ∧
    m.Keys.2 = m ∧ m.Items.2 = m := by
  refine ⟨?_, ?_, ?_, ?_, rfl, rfl, rfl, rfl, rfl⟩
  · exact ConcurrentMap.Get_fst_setShard m k k' _
      (goLookup_goAssign_ne _ _ _ _ h)
  · exact ConcurrentMap.Get_fst_setShard m k k' _ (by
      cases hok : (goLookup (m.GetShard k) k).isSome <;>
        simp [hok, goLookup_goAssign_ne _ _ _ _ h])
  · exact ConcurrentMap.Get_fst_setShard m k k' _
      (goLookup_goDelete_ne _ _ _ h)
  · exact ConcurrentMap.Get_fst_setShard m k k' _
      (goLookup_goDelete_ne _ _ _ h)

/-- C10 witness: on a concrete two-key map, each mutation at `"a"` preserves
the binding of `"b"`, and the read operations return the map unchanged. -/
theorem concurrentMap_single_key_frame_witness :
    ((((NewConcurrentMap Nat).Set "b" 7).Set "a" 5).Get "b").1
      = (((NewConcurrentMap Nat).Set "b" 7).Get "b").1 ∧
    ((((NewConcurrentMap Nat).Set "b" 7).SetIfAbsent "a" 5).2.Get "b").1
      = (((NewConcurrentMap Nat).Set "b" 7).Get "b").1 ∧
    ((((NewConcurrentMap Nat).Set "b" 7).Remove "a").Get "b").1
      = (((NewConcurrentMap Nat).Set "b" 7).Get "b").1 ∧
    ((((NewConcurrentMap Nat).Set "b" 7).Pop "a").2.Get "b").1
      = (((NewConcurrentMap Nat).Set "b" 7).Get "b").1 ∧
    (((NewConcurrentMap Nat).Set "b" 7).Get "a").2
      = (NewConcurrentMap Nat).Set "b" 7 ∧
    (((NewConcurrentMap Nat).Set "b" 7).Has "a").2
      = (NewConcurrentMap Nat).Set "b" 7 ∧
    ((NewConcurrentMap Nat).Set "b" 7).Count.2
      = (NewConcurrentMap Nat).Set "b" 7 ∧
    ((NewConcurrentMap Nat).Set "b" 7).Keys.2
      = (NewConcurrentMap Nat).Set "b" 7 ∧
    ((NewConcurrentMap Nat).Set "b" 7).Items.2
      = (NewConcurrentMap Nat).Set "b" 7 :=
  concurrentMap_single_key_frame ((NewConcurrentMap Nat).Set "b" 7) "a" "b" 5
    (by decide)

/-! ### Claim theorems: the beat reactor -/

/-- C8. Construction defaults: a non-positive heartbeat interval is
normalized to 5 seconds, otherwise the period equals the given interval in
seconds; the concurrency limit (semaphore capacity) is fixed at 20; the map's
shard count is fixed at 32. -/
theorem newBeatReactor_construction_defaults (n : Int) :
    (n ≤ 0 → (NewBeatReactor n).periodNanos = 5 * 1000000000) ∧
    (0 < n → (NewBeatReactor n).periodNanos = n * 1000000000) ∧
    (NewBeatReactor n).beatThreadCount = 20 ∧
    (NewBeatReactor n).semAvailable = 20 ∧
    ShardCount = 32 := by
  refine ⟨fun h => ?_, fun h => ?_, rfl, rfl, rfl⟩
  · simp [NewBeatReactor, h]
  · simp [NewBeatReactor, not_le.mpr h]

/-- C8 witness: a non-positive interval (-3) yields a 5-second period; a
positive interval (7) yields a 7-second period. -/
theorem newBeatReactor_construction_defaults_witness :
    (NewBeatReactor (-3)).periodNanos = 5 * 1000000000 ∧
    (NewBeatReactor 7).periodNanos = 7 * 1000000000 :=
  ⟨(newBeatReactor_construction_defaults (-3)).1 (by decide),
   (newBeatReactor_construction_defaults 7).2.1 (by decide)⟩

/-- C4. On a transient heartbeat error the task releases the limiter slot and
sleeps one full period before retrying: the iteration ends in
`sleepThenLoop`, the semaphore count is restored, and neither the live map,
the beat-record map, nor any record is mutated. -/
theorem sendInstanceBeat_transient_retry_frame (br : BeatReactor) (k : String)
    (r : Nat) (now : Int) (hsem : br.semAvailable ≠ 0)
    (hup : (heapGet br.heap r).Status = "UP") :
    (br.sendInstanceBeatIter k r .errTransient now).1.beatMap = br.beatMap ∧
    (br.sendInstanceBeatIter k r .errTransient now).1.beatRecordMap
      = br.beatRecordMap ∧
    (br.sendInstanceBeatIter k r .errTransient now).1.heap = br.heap ∧
    (br.sendInstanceBeatIter k r .errTransient now).1.semAvailable
      = br.semAvailable ∧
    (br.sendInstanceBeatIter k r .errTransient now).2
      = IterResult.sleepThenLoop := by
  simp [BeatReactor.sendInstanceBeatIter, hsem, hup]
  omega

/-! Concrete fixtures: one registered instance, its reactor state as left by
`NewBeatReactor` followed by registration of `upInstance` under key
`"order-1"` (heap reference 0), with all 20 semaphore permits free. -/

def upInstance : Instance :=
  { App := "order-service", Status := "UP", InstanceID := "order-1" }

def sampleReactor : BeatReactor :=
  { heap := [upInstance]
    beatMap := (NewConcurrentMap Nat).Set "order-1" 0
    beatRecordMap := NewConcurrentMap Int
    semAvailable := 20
    clientBeatIntervalInSecs := 5
    beatThreadCount := 20
    periodNanos := 5000000000 }

/-- C4 witness: with the record `UP` and permits free, a transient error
leaves maps, heap and semaphore count unchanged and the task sleeps. -/
theorem sendInstanceBeat_transient_retry_frame_witness :
    (sampleReactor.sendInstanceBeatIter "order-1" 0 .errTransient 0).1.beatMap
      = sampleReactor.beatMap ∧
    (sampleReactor.sendInstanceBeatIter "order-1" 0
      .errTransient 0).1.beatRecordMap = sampleReactor.beatRecordMap ∧
    (sampleReactor.sendInstanceBeatIter "order-1" 0 .errTransient 0).1.heap
      = sampleReactor.heap ∧
    (sampleReactor.sendInstanceBeatIter "order-1" 0
      .errTransient 0).1.semAvailable = sampleReactor.semAvailable ∧
    (sampleReactor.sendInstanceBeatIter "order-1" 0 .errTransient 0).2
      = IterResult.sleepThenLoop :=
  sendInstanceBeat_transient_retry_frame sampleReactor "order-1" 0 0
    (by decide) (by decide)

/-- C1. The fatal "not found" branch of `sendInstanceBeat` exits WITHOUT
releasing the acquired semaphore permit: starting from 20 free permits, the
iteration removes the key and exits, but only 19 permits remain free — the
claimed "exactly one release on every path from acquisition to sleep or exit"
fails on this path (every other path does release exactly once). -/
theorem sendInstanceBeat_notFound_leaks_semaphore :
    (sampleReactor.sendInstanceBeatIter "order-1" 0 .errNotFound 0).2
      = IterResult.exited ∧
    ((sampleReactor.sendInstanceBeatIter "order-1" 0
      .errNotFound 0).1.beatMap.Get "order-1").1.2 = false ∧
    (sampleReactor.sendInstanceBeatIter "order-1" 0
      .errNotFound 0).1.semAvailable = 19 := by
  decide

/-- C2. `RemoveBeatInfo` does NOT mark the stored record with a removed
marker: it sets the record's `Status` to `"UP"` (the live value) while
deleting the map entry, so the background task — which exits only when it
polls a status other than `"UP"` — does not exit on its next wake: with a
successful beat it records a timestamp and sleeps again, continuing to
consume limiter slots. -/
theorem removeBeatInfo_keeps_status_up :
    (heapGet (sampleReactor.RemoveBeatInfo "order-service" "order-1").heap
      0).Status = "UP" ∧
    (((sampleReactor.RemoveBeatInfo "order-service" "order-1").beatMap.Get
      "order-1").1).2 = false ∧
    ((sampleReactor.RemoveBeatInfo "order-service"
      "order-1").sendInstanceBeatIter "order-1" 0 .success 123).2
      = IterResult.sleepThenLoop := by
  decide

/-- A second, distinct record for the same instance key, as a caller would
pass to re-register `"order-1"` (heap reference 1). -/
def newInstance : Instance :=
  { App := "order-service-v2", Status := "UP", InstanceID := "order-1" }

def reAddReactor : BeatReactor :=
  { sampleReactor with heap := [upInstance, newInstance] }

/-- C3. `AddBeatInfo` on an already-present key reassigns its local variable
to the STALE record, sets that record's `Status` to `"UP"` (not a superseded
marker), and re-stores the stale record: the caller's new record (reference
1) is discarded, the map still holds reference 0, the spawned goroutine is
bound to reference 0, and the old task's next status poll still sees `"UP"`
so it keeps beating — two tasks now beat the same key. -/
theorem addBeatInfo_restores_stale_record :
    ((reAddReactor.AddBeatInfo 1).1.beatMap.Get "order-1").1
      = (some 0, true) ∧
    (reAddReactor.AddBeatInfo 1).2 = ("order-1", 0) ∧
    heapGet (reAddReactor.AddBeatInfo 1).1.heap 0 = upInstance ∧
    heapGet (reAddReactor.AddBeatInfo 1).1.heap 0 ≠ newInstance ∧
    ((reAddReactor.AddBeatInfo 1).1.sendInstanceBeatIter "order-1" 0
      .success 7).2 = IterResult.sleepThenLoop := by
  decide

end EurekaClient
